/-
Verification of the gene-expression ingestion pipeline (src/processor.py).

The development shallowly embeds the data model and the operations of the
pipeline: Python dictionaries become association lists with insertion-order
semantics, pandas cells become an inductive `Cell` type recording how
`float(...)` coercion behaves on them, and each processing function of
`processor.py` is translated into an executable Lean function.  Machine
floats are modelled by rationals plus an explicit NaN marker; the claims
under study are about control flow (which values are stored, skipped or
stringified), not about rounding.
-/
import Mathlib

/-- Python dict assignment `m[k] = v`: overwrite in place when the key is
present, append at the end otherwise. -/
def insertD {β : Type} : List (String × β) → String → β → List (String × β)
  | [], k, v => [(k, v)]
  | kv :: m, k, v => if kv.1 == k then (k, v) :: m else kv :: insertD m k v

/-- Python dict lookup `m[k]` (as an option; `none` models `k not in m`). -/
def lookupD {β : Type} : List (String × β) → String → Option β
  | [], _ => none
  | kv :: m, k => if kv.1 == k then some kv.2 else lookupD m k

/-- The keys of an association list, in insertion order. -/
def keysOf {β : Type} (m : List (String × β)) : List String :=
  m.map Prod.fst

/-- The dict produced by the loop `for x in l: if (g x).isSome: d[f x] := g x`,
starting from `acc`. -/
def dictInsertFold {α β : Type} (f : α → String) (g : α → Option β) :
    List (String × β) → List α → List (String × β)
  | acc, [] => acc
  | acc, x :: l =>
    dictInsertFold f g (match g x with | some v => insertD acc (f x) v | none => acc) l

/-- The keys the insertion loop appends, in order of first appearance,
given that keys for which `seen` holds are already present. -/
def newKeys {α β : Type} (f : α → String) (g : α → Option β) (seen : String → Bool) :
    List α → List String
  | [] => []
  | x :: l =>
    match g x with
    | none => newKeys f g seen l
    | some _ =>
      if seen (f x) then newKeys f g seen l
      else f x :: newKeys f g (fun k => decide (k = f x) || seen k) l

inductive Cell : Type where
  | num : ℚ → Cell
  | nan : Cell
  | strNum : String → ℚ → Cell
  | strNaN : String → Cell
  | strErr : String → Cell
deriving DecidableEq

/-- Outcome of Python `float(cell)`: a finite value, NaN, or an exception
carrying the raw cell rendered by `str(...)`. -/
def Cell.coerce : Cell → Except String (Option ℚ)
  | Cell.num q => Except.ok (some q)
  | Cell.nan => Except.ok none
  | Cell.strNum _ q => Except.ok (some q)
  | Cell.strNaN _ => Except.ok none
  | Cell.strErr s => Except.error s

/-- A value stored in a patient's `gene_expressions` dict: a finite float,
the float NaN, or a raw string kept after a failed coercion. -/
inductive ExprVal : Type where
  | num : ℚ → ExprVal
  | nan : ExprVal
  | str : String → ExprVal
deriving DecidableEq

def ExprVal.isNum : ExprVal → Bool
  | ExprVal.num _ => true
  | _ => false

/-- One patient dict as built by `processor.py`: `patient_id`,
`cancer_cohort`, `gene_expressions`, and the optional `clinical_data`
attached by the merger. -/
structure PatientRecord : Type where
  patient_id : String
  cancer_cohort : String
  gene_expressions : List (String × ExprVal)
  clinical_data : Option (List (String × String))
deriving DecidableEq

/-- One row of a clinical table, as the dict `row.to_dict()` (column name to
cell rendered as a string). -/
abbrev ClinRow : Type := List (String × String)

/-- A row of a standard-format (genes-in-first-column) table: the value of
the gene column, and the row's cell for each patient column. -/
abbrev StdRow : Type := String × (String → Cell)

/-- Attach a clinical row to a patient record (`merged_patient['clinical_data'] = ...`). -/
def withClinical (p : PatientRecord) (r : ClinRow) : PatientRecord :=
  ⟨p.patient_id, p.cancer_cohort, p.gene_expressions, some r⟩

/-- All suffixes of a list, longest first (ending with `[]`). -/
def tailsL {α : Type} : List α → List (List α)
  | [] => [[]]
  | x :: xs => (x :: xs) :: tailsL xs

/-- Python substring test `needle in hay`. -/
def isSubstr (needle hay : String) : Bool :=
  (tailsL hay.toList).any (fun t => needle.toList.isPrefixOf t)

/-- Python `s.upper()` (over the character list; gene symbols and row labels
are ASCII, where this agrees with `str.upper`). -/
def toUpperL (s : String) : String :=
  ⟨s.data.map Char.toUpper⟩

/-- The target cGAS-STING pathway genes from `config.TARGET_GENES`. -/
def TARGET_GENES : List String :=
  ["C6orf150", "TMEM173", "CCL5", "CXCL10", "CXCL9", "CXCL11",
   "NFKB1", "IKBKE", "IRF3", "TREX1", "ATM", "IL6", "CXCL8"]

/-- The constant `processor.BATCH_SIZE`. -/
def BATCH_SIZE : Nat := 1000

/-- Lines 250-259: for each target gene take it verbatim when it is a row
label, else the first row label equal up to upper-casing; note the matched
raw label `idx`, not the canonical symbol, is appended in that case. -/
def resolveGenesTcga (target_genes : List String) (index : List String) : List String :=
  target_genes.foldl (fun selected_genes gene =>
    if index.contains gene then selected_genes ++ [gene]
    else
      match index.find? (fun idx => toUpperL gene == toUpperL idx) with
      | some idx => selected_genes ++ [idx]
      | none => selected_genes) []

/-- Lines 263-268: fallback when nothing resolved; every row label that
contains some target gene as a case-insensitive substring is appended, once
per matching gene. -/
def fallbackGenesTcga (target_genes : List String) (index : List String) : List String :=
  index.foldl (fun selected_genes idx =>
    selected_genes ++ target_genes.foldl (fun acc gene =>
      if isSubstr (toUpperL gene) (toUpperL idx) then acc ++ [idx] else acc) []) []

/-- The resolved gene list of the TCGA path (exact/case-insensitive pass,
then the substring fallback when that pass found nothing). -/
def selectGenesTcga (target_genes : List String) (index : List String) : List String :=
  let selected_genes := resolveGenesTcga target_genes index
  if selected_genes = [] then fallbackGenesTcga target_genes index else selected_genes

/-- Lines 296-304, per cell: `float(...)`; keep finite values, skip NaN
(`np.isnan` check) and skip coercion failures (`except ... pass`). -/
def tcgaCellValue (cell : String → String → Cell) (patient_id gene : String) :
    Option ExprVal :=
  match (cell gene patient_id).coerce with
  | Except.ok (some q) => some (ExprVal.num q)
  | Except.ok none => none
  | Except.error _ => none

/-- The `gene_expressions` dict built for one patient by the TCGA path. -/
def buildExprsTcga (selected_genes : List String) (cell : String → String → Cell)
    (patient_id : String) : List (String × ExprVal) :=
  dictInsertFold (fun gene => gene) (tcgaCellValue cell patient_id) [] selected_genes

/-- Lines 287-308: build one patient dict; emit it only when
`gene_expressions` is non-empty. -/
def buildPatientTcga (selected_genes : List String) (cell : String → String → Cell)
    (cohort_name patient_id : String) : Option PatientRecord :=
  let exprs := buildExprsTcga selected_genes cell patient_id
  if exprs = [] then none else some ⟨patient_id, cohort_name, exprs, none⟩

/-- The records of one batch of patient columns. -/
def processBatchTcga (selected_genes : List String) (cell : String → String → Cell)
    (cohort_name : String) (batch_columns : List String) : List PatientRecord :=
  batch_columns.filterMap (buildPatientTcga selected_genes cell cohort_name)

/-- Recursion core of `chunkList`, structural on a fuel argument (the fuel
is always at least the list length, so the zero-fuel branch is never taken
on a non-empty list). -/
def chunkListAux {α : Type} (batch_size : Nat) : Nat → List α → List (List α)
  | _, [] => []
  | 0, _ :: _ => []
  | fuel + 1, x :: xs =>
    (x :: xs).take batch_size :: chunkListAux batch_size fuel (xs.drop (batch_size - 1))

/-- Slicing as in `range(0, len(cols), batch_size)`: the column list cut into
consecutive chunks of `batch_size` (meaningful for positive sizes, as in the
code where the size is the constant 1000). -/
def chunkList {α : Type} (batch_size : Nat) (l : List α) : List (List α) :=
  chunkListAux batch_size l.length l

/-- Lines 277-315: process the patient columns batch by batch, extending
`all_patients` with each batch's records. -/
def tcgaBatched (batch_size : Nat) (selected_genes : List String)
    (cell : String → String → Cell) (cohort_name : String)
    (patient_columns : List String) : List PatientRecord :=
  (chunkList batch_size patient_columns).foldl
    (fun all_patients batch_columns =>
      all_patients ++ processBatchTcga selected_genes cell cohort_name batch_columns) []

/-- The whole TCGA-format path: resolve genes against the row index, give up
(zero records) when nothing resolves, else build records in batches of
`BATCH_SIZE`. -/
def process_tcga_format_file (target_genes index : List String)
    (cell : String → String → Cell) (cohort_name : String)
    (patient_columns : List String) : List PatientRecord :=
  let selected_genes := selectGenesTcga target_genes index
  if selected_genes = [] then []
  else tcgaBatched BATCH_SIZE selected_genes cell cohort_name patient_columns

/-- Lines 173-177, per cell: `float(...)`; keep any successfully coerced
float (NaN included), and keep the raw value as a string on failure. -/
def stdCellValue (c : Cell) : ExprVal :=
  match c.coerce with
  | Except.ok (some q) => ExprVal.num q
  | Except.ok none => ExprVal.nan
  | Except.error s => ExprVal.str s

/-- The `gene_expressions` dict built for one patient by
`transform_to_patient_centric`: every gene row is stored. -/
def buildExprsStd (rows : List StdRow) (patient_id : String) : List (String × ExprVal) :=
  dictInsertFold (fun row => row.1) (fun row => some (stdCellValue (row.2 patient_id))) [] rows

/-- Lines 158-183: one record per patient column, unconditionally appended. -/
def transform_to_patient_centric (rows : List StdRow) (patient_columns : List String)
    (cohort_name : String) : List PatientRecord :=
  patient_columns.map (fun patient_id =>
    ⟨patient_id, cohort_name, buildExprsStd rows patient_id, none⟩)

inductive FormatPath : Type where
  | tcga : FormatPath
  | standard : FormatPath
deriving DecidableEq

/-- Line 214: `'sample' in sample_df.columns or sample_df.shape[1] > 100`. -/
def is_tcga_format (sample_columns : List String) : Bool :=
  sample_columns.contains "sample" || decide (sample_columns.length > 100)

/-- Lines 217-222: which processing path `process_tsv_file` takes, given the
columns of the sampled table. -/
def choose_format (sample_columns : List String) : FormatPath :=
  if is_tcga_format sample_columns then FormatPath.tcga else FormatPath.standard

/-- Lines 434-438: the static gene groupings. -/
def pathway_cgas_activation : List String := ["C6orf150", "TMEM173"]

def pathway_inflammatory_response : List String :=
  ["CCL5", "CXCL10", "CXCL9", "CXCL11", "IL6", "CXCL8"]

def pathway_signaling : List String := ["NFKB1", "IKBKE", "IRF3", "TREX1", "ATM"]

/-- Lines 454-460: the numeric expression values of a group's genes present
in the patient's dict (strings and NaN are filtered out). -/
def numericValues (genes : List String) (exprs : List (String × ExprVal)) : List ℚ :=
  genes.filterMap (fun gene =>
    match lookupD exprs gene with
    | some (ExprVal.num q) => some q
    | _ => none)

/-- Lines 462-466: `np.mean(values)` when any value contributes, `None`
otherwise. -/
def groupScore (genes : List String) (exprs : List (String × ExprVal)) : Option ℚ :=
  let values := numericValues genes exprs
  if values = [] then none else some (values.sum / (values.length : ℚ))

structure PathwayScores : Type where
  cGAS_activation : Option ℚ
  inflammatory_response : Option ℚ
  signaling : Option ℚ
  overall : Option ℚ
deriving DecidableEq

/-- Lines 443-481 for one patient: the three group scores, and the
0.4/0.4/0.2-weighted overall score computed only when all groups scored. -/
def calculate_pathway_score_one (p : PatientRecord) : PathwayScores :=
  let c := groupScore pathway_cgas_activation p.gene_expressions
  let i := groupScore pathway_inflammatory_response p.gene_expressions
  let s := groupScore pathway_signaling p.gene_expressions
  let overall : Option ℚ :=
    match c, i, s with
    | some cv, some iv, some sv => some (cv * (2 / 5) + iv * (2 / 5) + sv * (1 / 5))
    | _, _, _ => none
  ⟨c, i, s, overall⟩

/-- The scorer over the record list (each record is paired with its scores,
modelling the added `pathway_scores` key). -/
def calculate_pathway_score (patient_data : List PatientRecord) :
    List (PatientRecord × PathwayScores) :=
  patient_data.map (fun p => (p, calculate_pathway_score_one p))

/-- Line 377: the recognised identifier columns, in priority order. -/
def possible_id_columns : List String :=
  ["patient_id", "sample", "bcr_patient_barcode", "_PATIENT", "PATIENT_ID"]

/-- Lines 379-382: the first recognised column present in the clinical table. -/
def findIdColumn (columns : List String) : Option String :=
  possible_id_columns.find? (fun col => columns.contains col)

/-- A clinical table: its column names and its rows (each row carries the
identifier column, as a row of a real table does). -/
structure ClinTable : Type where
  cols : List String
  rows : List ClinRow
deriving DecidableEq

/-- Reading `row[id_column]` (rows of a table with that column always carry it; the
default covers only the ill-formed case). -/
def rowId (row : ClinRow) (id_column : String) : String :=
  (lookupD row id_column).getD ""

/-- Lines 402-413: exact dict lookup first, else the first dict entry (in
key-insertion order) whose identifier contains the patient id or is
contained in it. -/
def findClinicalRecord (clinical_dict : List (String × ClinRow)) (patient_id : String) :
    Option ClinRow :=
  match lookupD clinical_dict patient_id with
  | some r => some r
  | none =>
    (clinical_dict.find? (fun kv =>
      isSubstr patient_id kv.1 || isSubstr kv.1 patient_id)).map Prod.snd

/-- Lines 396-419, per record: attach the found clinical row (Python
truthiness: an empty dict is not attached); otherwise pass the record
through unchanged. -/
def mergePatient (clinical_dict : List (String × ClinRow)) (patient : PatientRecord) :
    PatientRecord :=
  match findClinicalRecord clinical_dict patient.patient_id with
  | some clinical_record =>
    if clinical_record.isEmpty then patient else withClinical patient clinical_record
  | none => patient

/-- Lines 367-421: build the id-to-row dict (later duplicate identifiers
overwrite earlier ones) and merge each record; when no identifier column is
recognised the records are returned unchanged. -/
def merge_with_clinical_data (gene_data : List PatientRecord) (clinical : ClinTable) :
    List PatientRecord :=
  match findIdColumn clinical.cols with
  | none => gene_data
  | some id_column =>
    let clinical_dict :=
      dictInsertFold (fun row => rowId row id_column) (fun row => some row) [] clinical.rows
    gene_data.map (mergePatient clinical_dict)

/-- The last table row whose identifier equals `id` (the row the dict holds
for that identifier). -/
def lastRowWith (rows : List ClinRow) (id_column id : String) : Option ClinRow :=
  (rows.filter (fun row => rowId row id_column == id)).getLast?

/-- The clinical identifiers in order of first appearance in the table. -/
def clinicalIdsInOrder (rows : List ClinRow) (id_column : String) : List String :=
  newKeys (fun row => rowId row id_column) (fun row => some row) (fun _ => false) rows

/-- The clinical row the merger attaches to a patient id, stated
declaratively. -/
def chooseClinicalRowSpec (rows : List ClinRow) (id_column patient_id : String) :
    Option ClinRow :=
  match lastRowWith rows id_column patient_id with
  | some r => some r
  | none =>
    ((clinicalIdsInOrder rows id_column).find? (fun clin_id =>
      isSubstr patient_id clin_id || isSubstr clin_id patient_id)).bind
      (lastRowWith rows id_column)

/-- Declarative restatement of the whole merger. -/
def mergeSpec (gene_data : List PatientRecord) (clinical : ClinTable) :
    List PatientRecord :=
  match findIdColumn clinical.cols with
  | none => gene_data
  | some id_column =>
    gene_data.map (fun patient =>
      match chooseClinicalRowSpec clinical.rows id_column patient.patient_id with
      | some r => if r.isEmpty then patient else withClinical patient r
      | none => patient)

/-! ## Example data used in concrete theorems -/

/-- Example cell function: every cell holds the numeric value 1. -/
def exCellOne : String → String → Cell := fun _ _ => Cell.num 1

/-- Example cell function: every cell is a non-numeric string. -/
def exCellBad : String → String → Cell := fun _ _ => Cell.strErr "n/a"

/-- Example cell function: numeric for patient P1, non-numeric otherwise. -/
def exCellMix : String → String → Cell :=
  fun _ patient_id => if patient_id = "P1" then Cell.num 1 else Cell.strErr "x"

/-- Example standard-format row whose cells are all the string "n/a". -/
def exRowBad : StdRow := ("Gene_X", fun _ => Cell.strErr "n/a")

def exRowsBad : List StdRow := [exRowBad]

/-- Example standard-format row whose cells are all NaN. -/
def exRowNan : StdRow := ("G", fun _ => Cell.nan)

def exRowsNan : List StdRow := [exRowNan]

/-- Example clinical rows: duplicate identifier AB around an identifier ABC,
all contained in the patient id ABCD. -/
def exClinRow1 : ClinRow := [("bcr_patient_barcode", "AB"), ("v", "1")]

def exClinRow2 : ClinRow := [("bcr_patient_barcode", "ABC"), ("v", "2")]

def exClinRow3 : ClinRow := [("bcr_patient_barcode", "AB"), ("v", "3")]

def exClinTable : ClinTable :=
  ⟨["bcr_patient_barcode", "v"], [exClinRow1, exClinRow2, exClinRow3]⟩

def exPatientABCD : PatientRecord := ⟨"ABCD", "COH", [("G", ExprVal.num 1)], none⟩

/-- Example clinical table with two rows sharing the identifier X. -/
def exClinRowX1 : ClinRow := [("PATIENT_ID", "X"), ("v", "1")]

def exClinRowX2 : ClinRow := [("PATIENT_ID", "X"), ("v", "2")]

def exClinTableX : ClinTable := ⟨["PATIENT_ID", "v"], [exClinRowX1, exClinRowX2]⟩

def exPatientX : PatientRecord := ⟨"X", "COH", [("G", ExprVal.num 1)], none⟩

/-! ## Lemmas -/

theorem lookupD_insertD {β : Type} :
    ∀ (m : List (String × β)) (k k' : String) (v : β),
      lookupD (insertD m k v) k' = if k' = k then some v else lookupD m k'
  | [], k, k', v => by
    by_cases h : k' = k
    · simp [insertD, lookupD, h]
    · simp [insertD, lookupD, h, Ne.symm h]
  | (a, b) :: m, k, k', v => by
    by_cases hak : a = k
    · subst hak
      by_cases h : k' = a
      · simp [insertD, lookupD, h]
      · simp [insertD, lookupD, h, Ne.symm h]
    · by_cases hak' : a = k'
      · subst hak'
        simp [insertD, lookupD, hak, Ne.symm hak, fun hh : a = k => hak hh]
      · simp [insertD, lookupD, hak, hak', lookupD_insertD m k k' v]

theorem mem_insertD {β : Type} :
    ∀ (m : List (String × β)) (k : String) (v : β) (kv : String × β),
      kv ∈ insertD m k v → kv = (k, v) ∨ kv ∈ m
  | [], k, v, kv => by simp [insertD]
  | (a, b) :: m, k, v, kv => by
    by_cases hak : a = k
    · subst hak
      simp only [insertD, beq_self_eq_true, if_true, List.mem_cons]
      rintro (h | h)
      · exact Or.inl h
      · exact Or.inr (Or.inr h)
    · simp only [insertD, beq_iff_eq, if_neg hak, List.mem_cons]
      rintro (h | h)
      · exact Or.inr (Or.inl h)
      · rcases mem_insertD m k v kv h with h' | h'
        · exact Or.inl h'
        · exact Or.inr (Or.inr h')

theorem keysOf_insertD {β : Type} :
    ∀ (m : List (String × β)) (k : String) (v : β),
      keysOf (insertD m k v) = if k ∈ keysOf m then keysOf m else keysOf m ++ [k]
  | [], k, v => by simp [insertD, keysOf]
  | (a, b) :: m, k, v => by
    by_cases hak : a = k
    · subst hak
      simp [insertD, keysOf]
    · have hka : ¬k = a := Ne.symm hak
      simp only [insertD, beq_iff_eq, if_neg hak, keysOf, List.map_cons]
      have ih := keysOf_insertD m k v
      simp only [keysOf] at ih
      rw [ih]
      by_cases h : k ∈ List.map Prod.fst m
      · rw [if_pos h, if_pos (by simp [List.mem_cons, h])]
      · rw [if_neg h, if_neg (by simp [List.mem_cons, hka, h])]
        simp

theorem nodup_keysOf_insertD {β : Type} (m : List (String × β)) (k : String) (v : β)
    (h : (keysOf m).Nodup) : (keysOf (insertD m k v)).Nodup := by
  rw [keysOf_insertD]
  by_cases hk : k ∈ keysOf m
  · rwa [if_pos hk]
  · rw [if_neg hk]
    simpa [List.nodup_append] using ⟨h, hk⟩

theorem getLast?_cons_isSome {α : Type} :
    ∀ (a : α) (l : List α), ((a :: l).getLast?).isSome = true
  | _, [] => rfl
  | a, b :: l => by rw [List.getLast?_cons_cons]; exact getLast?_cons_isSome b l

theorem getLast?_cons_of_some {α : Type} (a y : α) (l : List α)
    (h : l.getLast? = some y) : (a :: l).getLast? = some y := by
  cases l with
  | nil => simp at h
  | cons b t => rw [List.getLast?_cons_cons]; exact h

/-- The value stored under `k` after the insertion loop is the value of the
last element of `l` that inserts at key `k`; if no element does, the
accumulator's binding is untouched. -/
theorem lookupD_dictInsertFold {α β : Type} (f : α → String) (g : α → Option β) :
    ∀ (l : List α) (acc : List (String × β)) (k : String),
      lookupD (dictInsertFold f g acc l) k =
        match (l.filter (fun x => f x == k && (g x).isSome)).getLast? with
        | some x => g x
        | none => lookupD acc k
  | [], acc, k => by simp [dictInsertFold, List.filter_nil]
  | x :: l, acc, k => by
    cases hg : g x with
    | none =>
      have hstep : dictInsertFold f g acc (x :: l) = dictInsertFold f g acc l := by
        simp [dictInsertFold, hg]
      have hcond : (f x == k && (g x).isSome) = false := by simp [hg]
      rw [hstep, List.filter_cons, hcond]
      simp only [Bool.false_eq_true, if_false]
      exact lookupD_dictInsertFold f g l acc k
    | some v =>
      have hstep : dictInsertFold f g acc (x :: l) =
          dictInsertFold f g (insertD acc (f x) v) l := by
        simp [dictInsertFold, hg]
      rw [hstep, lookupD_dictInsertFold f g l (insertD acc (f x) v) k]
      by_cases hfk : f x = k
      · have hcond : (f x == k && (g x).isSome) = true := by simp [hg, hfk]
        rw [List.filter_cons, hcond]
        simp only [if_true]
        cases hfl : (l.filter (fun y => f y == k && (g y).isSome)).getLast? with
        | some y => rw [getLast?_cons_of_some x y _ hfl]
        | none =>
          have hnil : l.filter (fun y => f y == k && (g y).isSome) = [] := by
            cases hc : l.filter (fun y => f y == k && (g y).isSome) with
            | nil => rfl
            | cons a t => rw [hc] at hfl; have := getLast?_cons_isSome a t; simp [hfl] at this
          rw [hnil]
          simp only [List.getLast?_singleton]
          rw [lookupD_insertD, if_pos hfk.symm, hg]
      · have hcond : (f x == k && (g x).isSome) = false := by simp [hfk]
        rw [List.filter_cons, hcond]
        simp only [Bool.false_eq_true, if_false]
        cases hfl : (l.filter (fun y => f y == k && (g y).isSome)).getLast? with
        | some y => rfl
        | none => simp only []; rw [lookupD_insertD, if_neg (fun hh => hfk hh.symm)]

/-- Every entry of the dict built from the empty accumulator comes from some
element of the loop list: its key is that element's key and its value that
element's produced value. -/
theorem mem_dictInsertFold {α β : Type} (f : α → String) (g : α → Option β) :
    ∀ (l : List α) (acc : List (String × β)) (kv : String × β),
      kv ∈ dictInsertFold f g acc l →
        kv ∈ acc ∨ ∃ x, x ∈ l ∧ kv.1 = f x ∧ g x = some kv.2
  | [], acc, kv => fun h => Or.inl h
  | x :: l, acc, kv => by
    intro h
    cases hg : g x with
    | none =>
      rw [show dictInsertFold f g acc (x :: l) = dictInsertFold f g acc l by
        simp [dictInsertFold, hg]] at h
      rcases mem_dictInsertFold f g l acc kv h with h' | ⟨y, hy, hk, hv⟩
      · exact Or.inl h'
      · exact Or.inr ⟨y, List.mem_cons_of_mem _ hy, hk, hv⟩
    | some v =>
      rw [show dictInsertFold f g acc (x :: l) = dictInsertFold f g (insertD acc (f x) v) l by
        simp [dictInsertFold, hg]] at h
      rcases mem_dictInsertFold f g l _ kv h with h' | ⟨y, hy, hk, hv⟩
      · rcases mem_insertD acc (f x) v kv h' with h'' | h''
        · refine Or.inr ⟨x, List.mem_cons_self _ _, ?_, ?_⟩
          · rw [h'']
          · rw [h'', hg]
        · exact Or.inl h''
      · exact Or.inr ⟨y, List.mem_cons_of_mem _ hy, hk, hv⟩

theorem nodup_keysOf_dictInsertFold {α β : Type} (f : α → String) (g : α → Option β) :
    ∀ (l : List α) (acc : List (String × β)),
      (keysOf acc).Nodup → (keysOf (dictInsertFold f g acc l)).Nodup
  | [], acc, h => h
  | x :: l, acc, h => by
    cases hg : g x with
    | none =>
      rw [show dictInsertFold f g acc (x :: l) = dictInsertFold f g acc l by
        simp [dictInsertFold, hg]]
      exact nodup_keysOf_dictInsertFold f g l acc h
    | some v =>
      rw [show dictInsertFold f g acc (x :: l) = dictInsertFold f g (insertD acc (f x) v) l by
        simp [dictInsertFold, hg]]
      exact nodup_keysOf_dictInsertFold f g l _ (nodup_keysOf_insertD acc (f x) v h)

/-- The key order of the dict built by the insertion loop: the accumulator's
keys first, then the remaining keys in order of first appearance. -/
theorem keysOf_dictInsertFold {α β : Type} (f : α → String) (g : α → Option β) :
    ∀ (l : List α) (acc : List (String × β)),
      keysOf (dictInsertFold f g acc l) =
        keysOf acc ++ newKeys f g (fun k => decide (k ∈ keysOf acc)) l
  | [], acc => by simp [dictInsertFold, newKeys]
  | x :: l, acc => by
    cases hg : g x with
    | none =>
      rw [show dictInsertFold f g acc (x :: l) = dictInsertFold f g acc l by
        simp [dictInsertFold, hg]]
      rw [keysOf_dictInsertFold f g l acc]
      simp [newKeys, hg]
    | some v =>
      rw [show dictInsertFold f g acc (x :: l) = dictInsertFold f g (insertD acc (f x) v) l by
        simp [dictInsertFold, hg]]
      rw [keysOf_dictInsertFold f g l (insertD acc (f x) v), keysOf_insertD]
      by_cases hmem : f x ∈ keysOf acc
      · rw [if_pos hmem]
        have : newKeys f g (fun k => decide (k ∈ keysOf acc)) (x :: l) =
            newKeys f g (fun k => decide (k ∈ keysOf acc)) l := by
          simp [newKeys, hg, hmem]
        rw [this]
      · rw [if_neg hmem]
        have hseen : (fun k => decide (k ∈ keysOf acc ++ [f x])) =
            (fun k => decide (k = f x) || decide (k ∈ keysOf acc)) := by
          funext k
          by_cases h1 : k ∈ keysOf acc <;> by_cases h2 : k = f x <;> simp [h1, h2]
        have hcons : newKeys f g (fun k => decide (k ∈ keysOf acc)) (x :: l) =
            f x :: newKeys f g (fun k => decide (k = f x) || decide (k ∈ keysOf acc)) l := by
          simp [newKeys, hg, hmem]
        rw [hcons, hseen]
        simp

/-- Searching an association list with nodup keys by a predicate on the key
alone: find the first key satisfying the predicate, then look its value up. -/
theorem find?_keyPred {β : Type} (p : String → Bool) :
    ∀ (m : List (String × β)), (keysOf m).Nodup →
      m.find? (fun kv => p kv.1) =
        ((keysOf m).find? p).bind (fun k => (lookupD m k).map (fun v => (k, v)))
  | [], _ => rfl
  | (a, b) :: m, hnd => by
    have hnd' : (keysOf m).Nodup := (List.nodup_cons.mp hnd).2
    have hamem : a ∉ keysOf m := (List.nodup_cons.mp hnd).1
    cases hpa : p a with
    | true =>
      rw [List.find?_cons_of_pos _ (by simpa using hpa)]
      have : keysOf ((a, b) :: m) = a :: keysOf m := rfl
      rw [this, List.find?_cons_of_pos _ hpa]
      simp [lookupD]
    | false =>
      rw [List.find?_cons_of_neg _ (by simpa using hpa)]
      have hkeys : keysOf ((a, b) :: m) = a :: keysOf m := rfl
      rw [hkeys, List.find?_cons_of_neg _ (by simp [hpa])]
      rw [find?_keyPred p m hnd']
      cases hf : (keysOf m).find? p with
      | none => rfl
      | some k =>
        have hkm : k ∈ keysOf m := List.mem_of_find?_eq_some hf
        have hka : ¬a = k := fun h => hamem (h ▸ hkm)
        simp only [Option.some_bind]
        rw [show lookupD ((a, b) :: m) k = lookupD m k by simp [lookupD, hka]]

theorem chunkListAux_join {α : Type} (batch_size : Nat) (hb : 0 < batch_size) :
    ∀ (fuel : Nat) (l : List α), l.length ≤ fuel →
      (chunkListAux batch_size fuel l).flatten = l
  | fuel, [], _ => by cases fuel <;> simp [chunkListAux]
  | 0, x :: xs, h => by simp at h
  | fuel + 1, x :: xs, h => by
    have hlen : (xs.drop (batch_size - 1)).length ≤ fuel := by
      simp only [List.length_drop]
      have := Nat.le_of_succ_le_succ (by simpa using h)
      omega
    simp only [chunkListAux, List.flatten_cons,
      chunkListAux_join batch_size hb fuel (xs.drop (batch_size - 1)) hlen]
    cases batch_size with
    | zero => exact absurd hb (by simp)
    | succ n =>
      simp only [List.take_succ_cons, Nat.succ_sub_one, List.cons_append, List.cons.injEq,
        true_and]
      exact List.take_append_drop n xs

theorem chunkList_join {α : Type} (batch_size : Nat) (hb : 0 < batch_size) (l : List α) :
    (chunkList batch_size l).flatten = l :=
  chunkListAux_join batch_size hb l.length l (Nat.le_refl _)

theorem foldl_append_eq_join {γ δ : Type} (f : γ → List δ) :
    ∀ (L : List γ) (init : List δ),
      L.foldl (fun acc x => acc ++ f x) init = init ++ (L.map f).flatten
  | [], init => by simp
  | x :: L, init => by
    simp only [List.foldl_cons, List.map_cons, List.flatten_cons]
    rw [foldl_append_eq_join f L (init ++ f x), List.append_assoc]

theorem join_map_filterMap {γ δ : Type} (f : γ → Option δ) :
    ∀ (L : List (List γ)), (L.map (List.filterMap f)).flatten = L.flatten.filterMap f
  | [] => rfl
  | l :: L => by
    simp only [List.map_cons, List.flatten_cons, List.filterMap_append,
      join_map_filterMap f L]

/-- Batching is semantically invisible: for any positive batch size the
batched builder equals the single-pass builder over all patient columns. -/
theorem tcgaBatched_eq_single (batch_size : Nat) (hb : 0 < batch_size)
    (selected_genes : List String) (cell : String → String → Cell)
    (cohort_name : String) (patient_columns : List String) :
    tcgaBatched batch_size selected_genes cell cohort_name patient_columns =
      processBatchTcga selected_genes cell cohort_name patient_columns := by
  unfold tcgaBatched
  rw [foldl_append_eq_join (processBatchTcga selected_genes cell cohort_name)]
  rw [List.nil_append]
  unfold processBatchTcga
  rw [join_map_filterMap (buildPatientTcga selected_genes cell cohort_name)]
  rw [chunkList_join batch_size hb]

/-- Every record the batched builder emits was produced by `buildPatientTcga`
for some patient column. -/
theorem mem_tcgaBatched {batch_size : Nat} {selected_genes : List String}
    {cell : String → String → Cell} {cohort_name : String}
    {patient_columns : List String} {r : PatientRecord}
    (hr : r ∈ tcgaBatched batch_size selected_genes cell cohort_name patient_columns) :
    ∃ patient_id, buildPatientTcga selected_genes cell cohort_name patient_id = some r := by
  unfold tcgaBatched at hr
  rw [foldl_append_eq_join (processBatchTcga selected_genes cell cohort_name),
    List.nil_append, List.mem_flatten] at hr
  obtain ⟨batch_records, hbatch, hmem⟩ := hr
  rw [List.mem_map] at hbatch
  obtain ⟨batch_columns, _, rfl⟩ := hbatch
  unfold processBatchTcga at hmem
  rw [List.mem_filterMap] at hmem
  obtain ⟨patient_id, _, hp⟩ := hmem
  exact ⟨patient_id, hp⟩

/-- Shape of a successfully built TCGA patient record. -/
theorem buildPatientTcga_some {selected_genes : List String}
    {cell : String → String → Cell} {cohort_name patient_id : String}
    {r : PatientRecord}
    (h : buildPatientTcga selected_genes cell cohort_name patient_id = some r) :
    r = ⟨patient_id, cohort_name, buildExprsTcga selected_genes cell patient_id, none⟩ ∧
      buildExprsTcga selected_genes cell patient_id ≠ [] := by
  unfold buildPatientTcga at h
  by_cases hnil : buildExprsTcga selected_genes cell patient_id = []
  · rw [if_pos hnil] at h; exact absurd h (by simp)
  · rw [if_neg hnil] at h
    exact ⟨(Option.some_inj.mp h).symm, hnil⟩

/-- Every entry of a TCGA `gene_expressions` dict has its key among the
selected genes and a finite numeric value. -/
theorem mem_buildExprsTcga {selected_genes : List String}
    {cell : String → String → Cell} {patient_id : String} {kv : String × ExprVal}
    (h : kv ∈ buildExprsTcga selected_genes cell patient_id) :
    kv.1 ∈ selected_genes ∧ ∃ q, kv.2 = ExprVal.num q := by
  rcases mem_dictInsertFold _ _ selected_genes [] kv h with h' | ⟨x, hx, hk, hv⟩
  · simp at h'
  · refine ⟨hk ▸ hx, ?_⟩
    unfold tcgaCellValue at hv
    cases hc : (cell x patient_id).coerce with
    | ok oq =>
      cases oq with
      | some q => rw [hc] at hv; exact ⟨q, by simpa using hv.symm⟩
      | none => rw [hc] at hv; simp at hv
    | error s => rw [hc] at hv; simp at hv

/-- The value the standard path stores for gene `g` of a patient is
determined by the last table row labelled `g`. -/
theorem lookupD_buildExprsStd (rows : List StdRow) (patient_id g : String) :
    lookupD (buildExprsStd rows patient_id) g =
      ((rows.filter (fun row => row.1 == g)).getLast?).map
        (fun row => stdCellValue (row.2 patient_id)) := by
  unfold buildExprsStd
  rw [lookupD_dictInsertFold]
  have hpred : (fun (row : StdRow) =>
      row.1 == g && (some (stdCellValue (row.2 patient_id))).isSome) =
      (fun (row : StdRow) => row.1 == g) := by
    funext row; simp
  rw [hpred]
  cases (rows.filter (fun row => row.1 == g)).getLast? <;> rfl

/-- In the TCGA path a gene whose cell fails numeric coercion is absent from
the built dict. -/
theorem lookupD_buildExprsTcga_error (selected_genes : List String)
    (cell : String → String → Cell) (patient_id g : String) (s : String)
    (herr : (cell g patient_id).coerce = Except.error s) :
    lookupD (buildExprsTcga selected_genes cell patient_id) g = none := by
  unfold buildExprsTcga
  rw [lookupD_dictInsertFold]
  have hval : tcgaCellValue cell patient_id g = none := by
    unfold tcgaCellValue; rw [herr]
  have hnil : selected_genes.filter
      (fun gene => gene == g && (tcgaCellValue cell patient_id gene).isSome) = [] := by
    rw [List.filter_eq_nil_iff]
    intro gene _
    by_cases hgg : gene = g
    · subst hgg; simp [hval]
    · simp [hgg]
  rw [hnil]
  rfl

/-- A patient all of whose cells fail to contribute produces an empty dict,
hence no record. -/
theorem buildPatientTcga_none (selected_genes : List String)
    (cell : String → String → Cell) (cohort_name patient_id : String)
    (hall : ∀ gene ∈ selected_genes, tcgaCellValue cell patient_id gene = none) :
    buildPatientTcga selected_genes cell cohort_name patient_id = none := by
  have hnil : ∀ (l : List String) (acc : List (String × ExprVal)),
      (∀ gene ∈ l, tcgaCellValue cell patient_id gene = none) →
      dictInsertFold (fun gene => gene) (tcgaCellValue cell patient_id) acc l = acc := by
    intro l
    induction l with
    | nil => intro acc _; rfl
    | cons x l ih =>
      intro acc hl
      have hx := hl x (List.mem_cons_self _ _)
      have hstep : dictInsertFold (fun gene => gene) (tcgaCellValue cell patient_id) acc (x :: l)
          = dictInsertFold (fun gene => gene) (tcgaCellValue cell patient_id) acc l := by
        simp [dictInsertFold, hx]
      rw [hstep]
      exact ih acc (fun gene hg => hl gene (List.mem_cons_of_mem _ hg))
  unfold buildPatientTcga buildExprsTcga
  rw [hnil selected_genes [] hall]
  rfl

/-- Looking a patient id up in the clinical dict yields the last table row
with that identifier. -/
theorem lookupD_clinicalDict (rows : List ClinRow) (id_column k : String) :
    lookupD (dictInsertFold (fun row => rowId row id_column) (fun row => some row) [] rows) k =
      lastRowWith rows id_column k := by
  rw [lookupD_dictInsertFold]
  unfold lastRowWith
  have hpred : (fun (row : ClinRow) => rowId row id_column == k && (some row).isSome) =
      (fun (row : ClinRow) => rowId row id_column == k) := by
    funext row; simp
  rw [hpred]
  cases (rows.filter (fun row => rowId row id_column == k)).getLast? <;> rfl

/-- The key order of the clinical dict is the order of first appearance of
the identifiers in the table. -/
theorem keysOf_clinicalDict (rows : List ClinRow) (id_column : String) :
    keysOf (dictInsertFold (fun row => rowId row id_column) (fun row => some row) [] rows) =
      clinicalIdsInOrder rows id_column := by
  rw [keysOf_dictInsertFold]
  have hseen : (fun k => decide (k ∈ keysOf ([] : List (String × ClinRow)))) =
      (fun _ : String => false) := by
    funext k; simp [keysOf]
  unfold clinicalIdsInOrder
  rw [hseen]
  simp [keysOf]

/-- The record-finding logic of the merger, characterised declaratively. -/
theorem findClinicalRecord_eq_choose (rows : List ClinRow) (id_column patient_id : String) :
    findClinicalRecord
      (dictInsertFold (fun row => rowId row id_column) (fun row => some row) [] rows)
      patient_id =
      chooseClinicalRowSpec rows id_column patient_id := by
  unfold findClinicalRecord chooseClinicalRowSpec
  rw [lookupD_clinicalDict]
  cases hex : lastRowWith rows id_column patient_id with
  | some r => rfl
  | none =>
    simp only []
    have hnd : (keysOf (dictInsertFold (fun row => rowId row id_column)
        (fun row => some row) [] rows)).Nodup :=
      nodup_keysOf_dictInsertFold _ _ rows [] (by simp [keysOf])
    have hfind := find?_keyPred
      (fun k => isSubstr patient_id k || isSubstr k patient_id) _ hnd
    rw [hfind, keysOf_clinicalDict]
    cases hf : (clinicalIdsInOrder rows id_column).find? (fun clin_id =>
        isSubstr patient_id clin_id || isSubstr clin_id patient_id) with
    | none => rfl
    | some cid =>
      simp only [Option.some_bind]
      rw [lookupD_clinicalDict]
      cases lastRowWith rows id_column cid <;> rfl

/-! ## Claim theorems -/

/-- C7: for every input file, the pipeline chooses the genes-as-rows
(wide/TCGA) processing path exactly when the sampled table has a column
named "sample" or has more than 100 columns; otherwise it chooses the
standard-format path. -/
theorem C7_format_heuristic (sample_columns : List String) :
    (choose_format sample_columns = FormatPath.tcga ↔
      ("sample" ∈ sample_columns ∨ 100 < sample_columns.length)) ∧
    (choose_format sample_columns = FormatPath.standard ↔
      ¬("sample" ∈ sample_columns ∨ 100 < sample_columns.length)) := by
  unfold choose_format is_tcga_format
  by_cases h : "sample" ∈ sample_columns ∨ 100 < sample_columns.length
  · rw [if_pos (by simpa using h)]
    simp [h]
  · rw [if_neg (by simpa using h)]
    simp [h]

/-- C5: the Pathway Scorer assigns to `overall` the weighted sum of the
three group means with weights 0.4 (cGAS activation), 0.4 (inflammatory
response) and 0.2 (signaling) when all three group scores are non-None, and
assigns None to `overall` whenever at least one group score is None
(0.4 = 2/5 and 0.2 = 1/5 in the rational model). -/
theorem C5_overall_weighted_sum (p : PatientRecord) :
    (calculate_pathway_score_one p).overall =
      match (calculate_pathway_score_one p).cGAS_activation,
          (calculate_pathway_score_one p).inflammatory_response,
          (calculate_pathway_score_one p).signaling with
      | some cv, some iv, some sv => some (cv * (2 / 5) + iv * (2 / 5) + sv * (1 / 5))
      | _, _, _ => none := by
  unfold calculate_pathway_score_one
  cases groupScore pathway_cgas_activation p.gene_expressions <;>
    cases groupScore pathway_inflammatory_response p.gene_expressions <;>
      cases groupScore pathway_signaling p.gene_expressions <;> rfl

/-- C6: every pathway group score is the arithmetic mean of the patient's
numeric `gene_expressions` values for the group's genes, and None (not zero,
not an error) when no gene of the group contributes; on the concrete
expressions A = 2, B = 4 with group A, B the score is 3. -/
theorem C6_group_mean (p : PatientRecord) :
    ((calculate_pathway_score_one p).cGAS_activation =
      if numericValues pathway_cgas_activation p.gene_expressions = [] then none
      else some ((numericValues pathway_cgas_activation p.gene_expressions).sum /
        ((numericValues pathway_cgas_activation p.gene_expressions).length : ℚ))) ∧
    ((calculate_pathway_score_one p).inflammatory_response =
      if numericValues pathway_inflammatory_response p.gene_expressions = [] then none
      else some ((numericValues pathway_inflammatory_response p.gene_expressions).sum /
        ((numericValues pathway_inflammatory_response p.gene_expressions).length : ℚ))) ∧
    ((calculate_pathway_score_one p).signaling =
      if numericValues pathway_signaling p.gene_expressions = [] then none
      else some ((numericValues pathway_signaling p.gene_expressions).sum /
        ((numericValues pathway_signaling p.gene_expressions).length : ℚ))) ∧
    groupScore ["A", "B"] [("A", ExprVal.num 2), ("B", ExprVal.num 4)] = some 3 := by
  refine ⟨rfl, rfl, rfl, ?_⟩
  have hvals : numericValues ["A", "B"] [("A", ExprVal.num 2), ("B", ExprVal.num 4)] =
      [2, 4] := by
    simp [numericValues, lookupD]
  unfold groupScore
  rw [hvals]
  rw [if_neg (by decide : ¬([2, 4] : List ℚ) = [])]
  norm_num [List.sum_cons, List.sum_nil]

/-- C9: the sequence of records produced by the batched TCGA-format builder
is identical for any two positive batch sizes, and equals the single-pass
(one batch) run over all patient columns; the builder is a pure function,
so two runs on the same inputs are literally the same term. -/
theorem C9_batching_invariance (selected_genes : List String)
    (cell : String → String → Cell) (cohort_name : String)
    (patient_columns : List String) (b1 b2 : Nat) (h1 : 0 < b1) (h2 : 0 < b2) :
    tcgaBatched b1 selected_genes cell cohort_name patient_columns =
      tcgaBatched b2 selected_genes cell cohort_name patient_columns ∧
    tcgaBatched b1 selected_genes cell cohort_name patient_columns =
      processBatchTcga selected_genes cell cohort_name patient_columns := by
  have e1 := tcgaBatched_eq_single b1 h1 selected_genes cell cohort_name patient_columns
  have e2 := tcgaBatched_eq_single b2 h2 selected_genes cell cohort_name patient_columns
  exact ⟨e1.trans e2.symm, e1⟩

theorem C9_batching_invariance_witness :
    (tcgaBatched 2 ["G"] exCellOne "COH" ["P1", "P2", "P3"] =
      tcgaBatched 5 ["G"] exCellOne "COH" ["P1", "P2", "P3"]) ∧
    tcgaBatched 2 ["G"] exCellOne "COH" ["P1", "P2", "P3"] =
      processBatchTcga ["G"] exCellOne "COH" ["P1", "P2", "P3"] :=
  C9_batching_invariance ["G"] exCellOne "COH" ["P1", "P2", "P3"] 2 5 (by decide) (by decide)

/-- C10: when rows of the clinical table share an identifier, the exact
match of the merger attaches the fields of the last such row in table order
(earlier rows are overwritten while the identifier-to-row dict is built). -/
theorem C10_exact_match_last_duplicate (clinical : ClinTable) (id_column : String)
    (hcol : findIdColumn clinical.cols = some id_column) (p : PatientRecord) (r : ClinRow)
    (hlast : (clinical.rows.filter
      (fun row => rowId row id_column == p.patient_id)).getLast? = some r)
    (hne : r ≠ []) :
    merge_with_clinical_data [p] clinical = [withClinical p r] := by
  have hmap : merge_with_clinical_data [p] clinical =
      [mergePatient (dictInsertFold (fun row => rowId row id_column)
        (fun row => some row) [] clinical.rows) p] := by
    unfold merge_with_clinical_data
    rw [hcol]
    exact rfl
  rw [hmap]
  have hfound : findClinicalRecord (dictInsertFold (fun row => rowId row id_column)
      (fun row => some row) [] clinical.rows) p.patient_id = some r := by
    unfold findClinicalRecord
    rw [lookupD_clinicalDict]
    unfold lastRowWith
    rw [hlast]
  unfold mergePatient
  rw [hfound]
  have hempty : r.isEmpty = false := by simpa [List.isEmpty_iff] using hne
  simp [hempty]

theorem C10_exact_match_last_duplicate_witness :
    merge_with_clinical_data [exPatientX] exClinTableX = [withClinical exPatientX exClinRowX2] :=
  C10_exact_match_last_duplicate exClinTableX "PATIENT_ID" (by decide) exPatientX exClinRowX2
    (by decide) (by decide)

/-- C8 counterexample: the patient id ABCD has no exact match; the first
clinical row with a containment match is row 1 (identifier AB, field v = 1),
but the merger attaches row 3 (the last row with identifier AB, field
v = 3), because the containment scan runs over the identifier-to-row dict in
which later duplicate rows have overwritten earlier ones. -/
theorem C8_containment_attaches_last_row_of_first_id :
    merge_with_clinical_data [exPatientABCD] exClinTable =
      [withClinical exPatientABCD exClinRow3] ∧
    lastRowWith exClinTable.rows "bcr_patient_barcode" "ABCD" = none ∧
    isSubstr (rowId exClinRow1 "bcr_patient_barcode") "ABCD" = true ∧
    exClinRow3 ≠ exClinRow1 := by decide

/-- C8 (amended): the Clinical Merger attaches, per record, the last table
row whose identifier equals the patient id exactly when one exists;
otherwise it scans the clinical identifiers in order of first appearance in
the table and attaches, for the first identifier with a containment match
(the identifier contains the patient id or is contained in it), the last
table row carrying that identifier; records with no match pass through
unchanged, as does everything when no identifier column is recognised.
`mergeSpec` states exactly that policy and the merger equals it. -/
theorem C8_merge_matches_spec (gene_data : List PatientRecord) (clinical : ClinTable) :
    merge_with_clinical_data gene_data clinical = mergeSpec gene_data clinical := by
  unfold merge_with_clinical_data mergeSpec
  cases hcol : findIdColumn clinical.cols with
  | none => rfl
  | some id_column =>
    have hbody : ∀ q : PatientRecord,
        mergePatient (dictInsertFold (fun row => rowId row id_column)
          (fun row => some row) [] clinical.rows) q =
          match chooseClinicalRowSpec clinical.rows id_column q.patient_id with
          | some r => if r.isEmpty then q else withClinical q r
          | none => q := by
      intro q
      unfold mergePatient
      rw [findClinicalRecord_eq_choose]
    exact List.map_congr_left (fun q _ => hbody q)

/-- Keys of a standard-path `gene_expressions` dict come from the gene
column of the table rows. -/
theorem mem_buildExprsStd {rows : List StdRow} {patient_id : String}
    {kv : String × ExprVal} (h : kv ∈ buildExprsStd rows patient_id) :
    kv.1 ∈ rows.map Prod.fst := by
  rcases mem_dictInsertFold _ _ rows [] kv h with h' | ⟨row, hrow, hk, -⟩
  · simp at h'
  · exact hk ▸ List.mem_map_of_mem Prod.fst hrow

/-- C1 counterexample: in the standard-format path a patient whose only cell
is non-numeric still yields a record; the record is emitted with a non-empty
`gene_expressions` that contains no numeric value, where the claim requires
no record at all. -/
theorem C1_standard_emits_nonnumeric_record :
    transform_to_patient_centric exRowsBad ["P1"] "BRCA" =
      [⟨"P1", "BRCA", [("Gene_X", ExprVal.str "n/a")], none⟩] ∧
    ([("Gene_X", ExprVal.str "n/a")] : List (String × ExprVal)) ≠ [] ∧
    ([("Gene_X", ExprVal.str "n/a")] : List (String × ExprVal)).all
      (fun kv => !kv.2.isNum) = true := by decide

/-- C1 (amended): in the TCGA-format path every emitted record has a
non-empty `gene_expressions` whose values are all finite numeric (hence at
least one numeric value), and a patient none of whose cells contributes a
numeric value yields no record; in the standard-format path a record is
emitted for every patient column regardless, so an all-non-numeric patient
still produces a record (with its raw values retained). -/
theorem C1_emission_invariant_amended
    (selected_genes : List String) (cell : String → String → Cell)
    (cohort_name : String) (patient_columns : List String) (batch_size : Nat)
    (r : PatientRecord)
    (hr : r ∈ tcgaBatched batch_size selected_genes cell cohort_name patient_columns)
    (patient_id : String)
    (hall : ∀ gene ∈ selected_genes, tcgaCellValue cell patient_id gene = none)
    (rows : List StdRow) (std_columns : List String) (std_cohort : String) :
    (r.gene_expressions ≠ [] ∧
      r.gene_expressions.all (fun kv => kv.2.isNum) = true) ∧
    buildPatientTcga selected_genes cell cohort_name patient_id = none ∧
    (transform_to_patient_centric rows std_columns std_cohort).length =
      std_columns.length := by
  obtain ⟨pid, hbp⟩ := mem_tcgaBatched hr
  obtain ⟨hrec, hnil⟩ := buildPatientTcga_some hbp
  refine ⟨⟨?_, ?_⟩, buildPatientTcga_none _ _ _ _ hall, ?_⟩
  · rw [hrec]; exact hnil
  · rw [List.all_eq_true]
    intro kv hkv
    rw [hrec] at hkv
    obtain ⟨-, q, hq⟩ := mem_buildExprsTcga hkv
    rw [hq]; rfl
  · simp [transform_to_patient_centric]

theorem C1_emission_invariant_amended_witness :
    (([("G", ExprVal.num 1)] : List (String × ExprVal)) ≠ [] ∧
      ([("G", ExprVal.num 1)] : List (String × ExprVal)).all
        (fun kv => kv.2.isNum) = true) ∧
    buildPatientTcga ["G"] exCellMix "C" "P2" = none ∧
    (transform_to_patient_centric exRowsBad ["P1"] "C").length = (["P1"] : List String).length :=
  C1_emission_invariant_amended ["G"] exCellMix "C" ["P1"] 1000
    ⟨"P1", "C", [("G", ExprVal.num 1)], none⟩ (by decide) "P2" (by decide)
    exRowsBad ["P1"] "C"

/-- C2 counterexample: with the row label "tmem173" the target gene TMEM173
resolves case-insensitively, and the emitted record's key is the raw matched
label "tmem173", which is not a canonical symbol of the target gene list. -/
theorem C2_case_insensitive_key_not_canonical :
    selectGenesTcga TARGET_GENES ["tmem173"] = ["tmem173"] ∧
    process_tcga_format_file TARGET_GENES ["tmem173"] exCellOne "BRCA" ["P1"] =
      [⟨"P1", "BRCA", [("tmem173", ExprVal.num 1)], none⟩] ∧
    "tmem173" ∉ TARGET_GENES := by decide

/-- C2 (amended): every key of an emitted record's `gene_expressions` is the
raw resolved label — a member of the selected-genes list in the TCGA path
(equal to the canonical symbol only for exact matches) and a gene-column
label of the table in the standard path. -/
theorem C2_keys_are_resolved_labels
    (selected_genes : List String) (cell : String → String → Cell)
    (cohort_name : String) (patient_columns : List String) (batch_size : Nat)
    (r : PatientRecord)
    (hr : r ∈ tcgaBatched batch_size selected_genes cell cohort_name patient_columns)
    (rows : List StdRow) (std_columns : List String) (std_cohort : String)
    (p : PatientRecord)
    (hp : p ∈ transform_to_patient_centric rows std_columns std_cohort) :
    r.gene_expressions.all (fun kv => selected_genes.contains kv.1) = true ∧
    p.gene_expressions.all (fun kv => (rows.map Prod.fst).contains kv.1) = true := by
  constructor
  · obtain ⟨pid, hbp⟩ := mem_tcgaBatched hr
    obtain ⟨hrec, -⟩ := buildPatientTcga_some hbp
    rw [List.all_eq_true]
    intro kv hkv
    rw [hrec] at hkv
    obtain ⟨hmem, -⟩ := mem_buildExprsTcga hkv
    simpa using hmem
  · unfold transform_to_patient_centric at hp
    rw [List.mem_map] at hp
    obtain ⟨pid, -, hpe⟩ := hp
    rw [List.all_eq_true]
    intro kv hkv
    rw [← hpe] at hkv
    have hm := @mem_buildExprsStd rows pid kv hkv
    simpa using hm

theorem C2_keys_are_resolved_labels_witness :
    ([("G", ExprVal.num 1)] : List (String × ExprVal)).all
      (fun kv => (["G"] : List String).contains kv.1) = true ∧
    ([("Gene_X", ExprVal.str "n/a")] : List (String × ExprVal)).all
      (fun kv => (exRowsBad.map Prod.fst).contains kv.1) = true :=
  C2_keys_are_resolved_labels ["G"] exCellOne "C" ["P1"] 1000
    ⟨"P1", "C", [("G", ExprVal.num 1)], none⟩ (by decide)
    exRowsBad ["P1"] "C" ⟨"P1", "C", [("Gene_X", ExprVal.str "n/a")], none⟩ (by decide)

/-- C3 counterexample: in the standard-format path a cell coercing to NaN is
stored under the gene's key as NaN, where the claim requires the gene to be
absent. -/
theorem C3_standard_path_stores_nan :
    transform_to_patient_centric exRowsNan ["P1"] "BRCA" =
      [⟨"P1", "BRCA", [("G", ExprVal.nan)], none⟩] ∧
    lookupD (buildExprsStd exRowsNan "P1") "G" = some ExprVal.nan := by decide

/-- C3 (amended): in the TCGA-format path NaN cells are excluded (no stored
value is NaN); in the standard-format path a cell whose coercion yields NaN
is stored as NaN under the gene's key in the emitted record. -/
theorem C3_nan_handling_amended
    (selected_genes : List String) (cell : String → String → Cell)
    (cohort_name : String) (patient_columns : List String) (batch_size : Nat)
    (r : PatientRecord)
    (hr : r ∈ tcgaBatched batch_size selected_genes cell cohort_name patient_columns)
    (rows : List StdRow) (patient_id g : String) (row : StdRow)
    (hlast : (rows.filter (fun row2 => row2.1 == g)).getLast? = some row)
    (hnan : (row.2 patient_id).coerce = Except.ok none)
    (std_columns : List String) (std_cohort : String)
    (hpid : patient_id ∈ std_columns) :
    r.gene_expressions.all (fun kv => !(kv.2 == ExprVal.nan)) = true ∧
    lookupD (buildExprsStd rows patient_id) g = some ExprVal.nan ∧
    (⟨patient_id, std_cohort, buildExprsStd rows patient_id, none⟩ : PatientRecord) ∈
      transform_to_patient_centric rows std_columns std_cohort := by
  refine ⟨?_, ?_, ?_⟩
  · obtain ⟨pid, hbp⟩ := mem_tcgaBatched hr
    obtain ⟨hrec, -⟩ := buildPatientTcga_some hbp
    rw [List.all_eq_true]
    intro kv hkv
    rw [hrec] at hkv
    obtain ⟨-, q, hq⟩ := mem_buildExprsTcga hkv
    rw [hq]; rfl
  · rw [lookupD_buildExprsStd, hlast, Option.map_some']
    unfold stdCellValue
    rw [hnan]
  · unfold transform_to_patient_centric
    exact List.mem_map_of_mem _ hpid

theorem C3_nan_handling_amended_witness :
    ([("G", ExprVal.num 1)] : List (String × ExprVal)).all
      (fun kv => !(kv.2 == ExprVal.nan)) = true ∧
    lookupD (buildExprsStd exRowsNan "P1") "G" = some ExprVal.nan ∧
    (⟨"P1", "C", buildExprsStd exRowsNan "P1", none⟩ : PatientRecord) ∈
      transform_to_patient_centric exRowsNan ["P1"] "C" :=
  C3_nan_handling_amended ["G"] exCellOne "C" ["P1"] 1000
    ⟨"P1", "C", [("G", ExprVal.num 1)], none⟩ (by decide)
    exRowsNan "P1" "G" exRowNan (by rfl) (by rfl) ["P1"] "C" (by decide)

/-- C4 counterexample: in the TCGA path a cell failing numeric coercion is
not retained as a string — the gene is skipped, and a patient with only such
cells yields no record at all, where the claim requires the raw value kept. -/
theorem C4_tcga_path_drops_nonnumeric :
    tcgaBatched 1000 ["G"] exCellBad "BRCA" ["P1"] = [] ∧
    buildExprsTcga ["G"] exCellBad "P1" = [] ∧
    (exCellBad "G" "P1").coerce = Except.error "n/a" :=
  ⟨by decide, by decide, rfl⟩

/-- C4 (amended): on a failed numeric coercion the standard-format path
retains the raw cell value as a string under the gene's key, while the
TCGA-format path silently skips the gene (the value is dropped); neither
path aborts (both builders are total functions). -/
theorem C4_coercion_failure_amended
    (selected_genes : List String) (cell : String → String → Cell)
    (patient_id g s : String)
    (herr : (cell g patient_id).coerce = Except.error s)
    (rows : List StdRow) (patient_id2 g2 s2 : String) (row : StdRow)
    (hlast : (rows.filter (fun row2 => row2.1 == g2)).getLast? = some row)
    (herr2 : (row.2 patient_id2).coerce = Except.error s2) :
    lookupD (buildExprsTcga selected_genes cell patient_id) g = none ∧
    lookupD (buildExprsStd rows patient_id2) g2 = some (ExprVal.str s2) := by
  refine ⟨lookupD_buildExprsTcga_error selected_genes cell patient_id g s herr, ?_⟩
  rw [lookupD_buildExprsStd, hlast, Option.map_some']
  unfold stdCellValue
  rw [herr2]

theorem C4_coercion_failure_amended_witness :
    lookupD (buildExprsTcga ["G"] exCellBad "P1") "G" = none ∧
    lookupD (buildExprsStd exRowsBad "P1") "Gene_X" = some (ExprVal.str "n/a") :=
  C4_coercion_failure_amended ["G"] exCellBad "P1" "G" "n/a" (by rfl)
    exRowsBad "P1" "Gene_X" "n/a" exRowBad (by rfl) (by rfl)
